import Mathlib

/-!
# Verification of the manapool Go client library

Shallow embedding of the repository `repricah/manapool`:

* `errors.go` — the typed error taxonomy (`APIError`, `ValidationError`,
  `NetworkError`) and the classification predicates on `APIError`.
* The request Executor (rate limiting, retry with exponential backoff, error
  classification, cancellation), `InventoryOptions.Validate` and the
  `Timestamp` JSON codec are declared by the repository's tests and described
  in its specification, but their defining files are not part of the source
  snapshot; those parts are modelled from the specification, as marked on
  each definition.

Go `int` values are embedded as `Int`; durations as `Nat` nanosecond counts.
-/

/-- `APIError` from `errors.go`: an error returned by the Manapool API.
`Response` (`*http.Response`, possibly nil) is embedded as an `Option Unit`
presence flag, since no predicate reads anything from the raw response. -/
structure APIError where
  StatusCode : Int
  Message : String
  RequestID : String := ""
  Response : Option Unit := none
  deriving Repr, DecidableEq

/-- `APIError.IsNotFound` from `errors.go`: true iff the status is 404. -/
def APIError.IsNotFound (e : APIError) : Bool :=
  e.StatusCode == 404

/-- `APIError.IsUnauthorized` from `errors.go`: true iff the status is 401. -/
def APIError.IsUnauthorized (e : APIError) : Bool :=
  e.StatusCode == 401

/-- `APIError.IsForbidden` from `errors.go`: true iff the status is 403. -/
def APIError.IsForbidden (e : APIError) : Bool :=
  e.StatusCode == 403

/-- `APIError.IsRateLimited` from `errors.go`: true iff the status is 429. -/
def APIError.IsRateLimited (e : APIError) : Bool :=
  e.StatusCode == 429

/-- `APIError.IsServerError` from `errors.go`: true iff the status is 5xx. -/
def APIError.IsServerError (e : APIError) : Bool :=
  500 ≤ e.StatusCode && e.StatusCode < 600

/-- `ValidationError` from `errors.go`. -/
structure ValidationError where
  Field : String
  Message : String
  deriving Repr, DecidableEq

/-- `NetworkError` from `errors.go`; the wrapped Go `error` cause is embedded
as an optional message. -/
structure NetworkError where
  Message : String
  Err : Option String := none
  deriving Repr, DecidableEq

/-- `NewAPIError` from `errors.go`. -/
def NewAPIError (statusCode : Int) (message : String) : APIError :=
  { StatusCode := statusCode, Message := message }

/-- `NewValidationError` from `errors.go`. -/
def NewValidationError (field message : String) : ValidationError :=
  { Field := field, Message := message }

/-- `NewNetworkError` from `errors.go`. -/
def NewNetworkError (message : String) (err : Option String) : NetworkError :=
  { Message := message, Err := err }

/-- C4: every classification predicate of `APIError` is determined purely by
the status code: `IsNotFound` holds iff the status is 404, `IsUnauthorized`
iff 401, `IsForbidden` iff 403, `IsRateLimited` iff 429, `IsServerError` iff
the status lies in `[500, 600)`; since each predicate is characterised by a
condition on `StatusCode` alone, no other field influences any predicate. -/
theorem apiError_predicates_purely_status (e : APIError) :
    (e.IsNotFound = true ↔ e.StatusCode = 404) ∧
    (e.IsUnauthorized = true ↔ e.StatusCode = 401) ∧
    (e.IsForbidden = true ↔ e.StatusCode = 403) ∧
    (e.IsRateLimited = true ↔ e.StatusCode = 429) ∧
    (e.IsServerError = true ↔ 500 ≤ e.StatusCode ∧ e.StatusCode < 600) := by
  simp [APIError.IsNotFound, APIError.IsUnauthorized, APIError.IsForbidden,
    APIError.IsRateLimited, APIError.IsServerError]

/-- C9: the five classification predicates of `APIError` are pairwise
mutually exclusive — for any status code at most one of them is true. -/
theorem apiError_predicates_mutually_exclusive (e : APIError) :
    ¬(e.IsNotFound = true ∧ e.IsUnauthorized = true) ∧
    ¬(e.IsNotFound = true ∧ e.IsForbidden = true) ∧
    ¬(e.IsNotFound = true ∧ e.IsRateLimited = true) ∧
    ¬(e.IsNotFound = true ∧ e.IsServerError = true) ∧
    ¬(e.IsUnauthorized = true ∧ e.IsForbidden = true) ∧
    ¬(e.IsUnauthorized = true ∧ e.IsRateLimited = true) ∧
    ¬(e.IsUnauthorized = true ∧ e.IsServerError = true) ∧
    ¬(e.IsForbidden = true ∧ e.IsRateLimited = true) ∧
    ¬(e.IsForbidden = true ∧ e.IsServerError = true) ∧
    ¬(e.IsRateLimited = true ∧ e.IsServerError = true) := by
  simp only [APIError.IsNotFound, APIError.IsUnauthorized, APIError.IsForbidden,
    APIError.IsRateLimited, APIError.IsServerError, beq_iff_eq,
    Bool.and_eq_true, decide_eq_true_eq, not_and]
  refine ⟨?_, ?_, ?_, ?_, ?_, ?_, ?_, ?_, ?_, ?_⟩ <;> intro h <;> omega

/-! ## The request Executor

Modelled from the spec: the Executor's defining file is not in the source
snapshot (only its tests and its configuration options are), so the attempt
loop of §4.1, the error classifier of §4.2 and the backoff policy of §4.3
are embedded from the specification's words.  An execution is parameterised
by the environment: the outcome each transport attempt would produce, the
response-body decoder of the invoking typed operation, and whether the
cancellation signal has fired at each rate-limiter acquisition point. -/

/-- A typed error as returned by the Executor: one of the three error
shapes of `errors.go`. -/
inductive TypedError where
  | api (e : APIError)
  | validation (e : ValidationError)
  | network (e : NetworkError)
  deriving Repr, DecidableEq

/-- Modelled from the spec (§3 Attempt Outcome): the tagged result of one
transport call.  `success` means an HTTP 2xx exchange carrying the raw body;
`httpFailure` a completed exchange with a non-2xx status; `transportFailure`
a connection-level failure carrying its cause. -/
inductive AttemptOutcome where
  | success (body : String)
  | transportFailure (cause : String)
  | httpFailure (status : Int) (body : String)
  deriving Repr, DecidableEq

/-- The result of classifying one attempt: either the raw successful body or
a typed error together with its retry-eligibility flag. -/
inductive Classified where
  | ok (body : String)
  | fail (e : TypedError) (retryable : Bool)
  deriving Repr, DecidableEq

/-- Modelled from the spec (§4.2 Error Classifier): transport failures are
retryable `NetworkError`s; a 2xx body that the operation's decoder rejects is
a terminal `ValidationError`; 429 and 5xx are retryable `APIError`s; every
other non-2xx status is a terminal `APIError`.  The classifier's best-effort
message extraction is embedded as carrying the raw body as the message. -/
def classify (decodeOk : String → Bool) : AttemptOutcome → Classified
  | .success body =>
      if decodeOk body then .ok body
      else .fail (.validation (NewValidationError "response"
        ("failed to parse response body: " ++ body))) false
  | .transportFailure cause =>
      .fail (.network (NewNetworkError "request failed" (some cause))) true
  | .httpFailure status body =>
      if status == 429 then .fail (.api (NewAPIError status body)) true
      else if 500 ≤ status && status < 600 then
        .fail (.api (NewAPIError status body)) true
      else .fail (.api (NewAPIError status body)) false

/-- What one logical call produced: the terminal result, the number of
transport attempts performed, and the backoff delays slept between attempts
(in order; delay `k` of the list was slept before retry attempt `k+1`). -/
structure ExecResult where
  result : Except TypedError String
  attempts : Nat
  delays : List Nat
  deriving Repr

/-- Modelled from the spec (§4.1 attempt loop, steps 2–8): before each
attempt the rate-limit permit acquisition observes the cancellation signal
and aborts with a `NetworkError` having made no further transport call; a
classified terminal outcome returns immediately; a retryable outcome with
retries remaining sleeps the current backoff, doubles it, and loops.
`attempt` is the index of the next attempt, `fuel` the remaining retry
budget, `backoff` the delay the next retry would sleep. -/
def runAttempts (decodeOk : String → Bool) (outcomes : Nat → AttemptOutcome)
    (cancelled : Nat → Bool) (backoff : Nat) (attempt : Nat) (fuel : Nat) :
    ExecResult :=
  if cancelled attempt then
    { result := .error (.network (NewNetworkError "rate limiter wait failed"
        (some "context canceled"))),
      attempts := attempt, delays := [] }
  else
    match classify decodeOk (outcomes attempt) with
    | .ok body => { result := .ok body, attempts := attempt + 1, delays := [] }
    | .fail e retryable =>
      match fuel with
      | 0 => { result := .error e, attempts := attempt + 1, delays := [] }
      | fuel' + 1 =>
        if retryable then
          let r := runAttempts decodeOk outcomes cancelled (backoff * 2)
            (attempt + 1) fuel'
          { result := r.result, attempts := r.attempts,
            delays := backoff :: r.delays }
        else { result := .error e, attempts := attempt + 1, delays := [] }

/-- Modelled from the spec (§4.1 contract): execute one logical call with
the configured `maxRetries` and `initialBackoff`, starting at attempt 0. -/
def execute (decodeOk : String → Bool) (outcomes : Nat → AttemptOutcome)
    (cancelled : Nat → Bool) (maxRetries : Nat) (initialBackoff : Nat) :
    ExecResult :=
  runAttempts decodeOk outcomes cancelled initialBackoff 0 maxRetries

/-! ### Step equations for the attempt loop -/

lemma runAttempts_cancelled (decodeOk : String → Bool)
    (outcomes : Nat → AttemptOutcome) (cancelled : Nat → Bool)
    (backoff attempt fuel : Nat) (hc : cancelled attempt = true) :
    runAttempts decodeOk outcomes cancelled backoff attempt fuel =
      { result := .error (.network (NewNetworkError "rate limiter wait failed"
          (some "context canceled"))),
        attempts := attempt, delays := [] } := by
  unfold runAttempts
  rw [hc]
  simp

lemma runAttempts_fail_terminal (decodeOk : String → Bool)
    (outcomes : Nat → AttemptOutcome) (cancelled : Nat → Bool)
    (backoff attempt fuel : Nat) (e : TypedError)
    (hc : cancelled attempt = false)
    (hcl : classify decodeOk (outcomes attempt) = .fail e false) :
    runAttempts decodeOk outcomes cancelled backoff attempt fuel =
      { result := .error e, attempts := attempt + 1, delays := [] } := by
  unfold runAttempts
  rw [hc, hcl]
  cases fuel <;> simp

lemma runAttempts_fail_fuel_zero (decodeOk : String → Bool)
    (outcomes : Nat → AttemptOutcome) (cancelled : Nat → Bool)
    (backoff attempt : Nat) (e : TypedError) (retryable : Bool)
    (hc : cancelled attempt = false)
    (hcl : classify decodeOk (outcomes attempt) = .fail e retryable) :
    runAttempts decodeOk outcomes cancelled backoff attempt 0 =
      { result := .error e, attempts := attempt + 1, delays := [] } := by
  unfold runAttempts
  rw [hc, hcl]
  simp

lemma runAttempts_fail_retry (decodeOk : String → Bool)
    (outcomes : Nat → AttemptOutcome) (cancelled : Nat → Bool)
    (backoff attempt fuel' : Nat) (e : TypedError)
    (hc : cancelled attempt = false)
    (hcl : classify decodeOk (outcomes attempt) = .fail e true) :
    runAttempts decodeOk outcomes cancelled backoff attempt (fuel' + 1) =
      { result := (runAttempts decodeOk outcomes cancelled (backoff * 2)
          (attempt + 1) fuel').result,
        attempts := (runAttempts decodeOk outcomes cancelled (backoff * 2)
          (attempt + 1) fuel').attempts,
        delays := backoff :: (runAttempts decodeOk outcomes cancelled
          (backoff * 2) (attempt + 1) fuel').delays } := by
  conv_lhs => unfold runAttempts
  rw [hc, hcl]
  simp

lemma classify_httpFailure_terminal (decodeOk : String → Bool)
    (s : Int) (body : String) (hs : s = 401 ∨ s = 403 ∨ s = 404) :
    classify decodeOk (.httpFailure s body) =
      .fail (.api (NewAPIError s body)) false := by
  rcases hs with h | h | h <;> subst h <;> rfl

lemma classify_httpFailure_retryable (decodeOk : String → Bool)
    (s : Int) (body : String)
    (hs : s = 429 ∨ s = 500 ∨ s = 502 ∨ s = 503 ∨ s = 504) :
    classify decodeOk (.httpFailure s body) =
      .fail (.api (NewAPIError s body)) true := by
  rcases hs with h | h | h | h | h <;> subst h <;> rfl

/-- C1: when the first attempt receives a status in {401, 403, 404}, the
Executor performs exactly one transport attempt, sleeps no backoff, and
returns an `APIError` carrying that status, whatever `maxRetries` is. -/
theorem execute_terminal_4xx_single_attempt
    (decodeOk : String → Bool) (outcomes : Nat → AttemptOutcome)
    (maxRetries initialBackoff : Nat) (s : Int) (body : String)
    (hs : s = 401 ∨ s = 403 ∨ s = 404)
    (hout : outcomes 0 = .httpFailure s body) :
    execute decodeOk outcomes (fun _ => false) maxRetries initialBackoff =
      { result := .error (.api (NewAPIError s body)), attempts := 1,
        delays := [] } := by
  unfold execute
  exact runAttempts_fail_terminal decodeOk outcomes (fun _ => false)
    initialBackoff 0 maxRetries _ rfl
    (by rw [hout, classify_httpFailure_terminal decodeOk s body hs])

/-- C1 witness: a 404 on the first attempt with `maxRetries = 3` yields one
attempt and `APIError` 404. -/
theorem execute_terminal_4xx_single_attempt_witness :
    execute (fun _ => true) (fun _ => .httpFailure 404 "account not found")
        (fun _ => false) 3 1 =
      { result := .error (.api (NewAPIError 404 "account not found")),
        attempts := 1, delays := [] } :=
  execute_terminal_4xx_single_attempt (fun _ => true)
    (fun _ => .httpFailure 404 "account not found") 3 1 404
    "account not found" (Or.inr (Or.inr rfl)) rfl

lemma runAttempts_retryable_exhausts (decodeOk : String → Bool)
    (outcomes : Nat → AttemptOutcome) (s : Nat → Int) (b : Nat → String)
    (hs : ∀ k, s k = 429 ∨ s k = 500 ∨ s k = 502 ∨ s k = 503 ∨ s k = 504)
    (hout : ∀ k, outcomes k = .httpFailure (s k) (b k)) :
    ∀ fuel attempt backoff,
      (runAttempts decodeOk outcomes (fun _ => false) backoff attempt
          fuel).result =
        .error (.api (NewAPIError (s (attempt + fuel)) (b (attempt + fuel)))) ∧
      (runAttempts decodeOk outcomes (fun _ => false) backoff attempt
          fuel).attempts = attempt + fuel + 1 := by
  intro fuel
  induction fuel with
  | zero =>
    intro attempt backoff
    rw [runAttempts_fail_fuel_zero decodeOk outcomes (fun _ => false) backoff
      attempt _ true rfl
      (by rw [hout attempt,
        classify_httpFailure_retryable decodeOk _ _ (hs attempt)])]
    simp
  | succ fuel' ih =>
    intro attempt backoff
    rw [runAttempts_fail_retry decodeOk outcomes (fun _ => false) backoff
      attempt fuel' _ rfl
      (by rw [hout attempt,
        classify_httpFailure_retryable decodeOk _ _ (hs attempt)])]
    have harith : attempt + 1 + fuel' = attempt + (fuel' + 1) := by omega
    have h := ih (attempt + 1) (backoff * 2)
    rw [harith] at h
    exact ⟨h.1, h.2⟩

/-- C2: when every attempt fails with a status in {429, 500, 502, 503, 504}
and `maxRetries = n`, the Executor performs exactly `n + 1` transport
attempts and returns the `APIError` classified from the last attempt; with
`n = 0` this is a single attempt whose first retryable failure is terminal. -/
theorem execute_retryable_attempts_n_plus_one (decodeOk : String → Bool)
    (outcomes : Nat → AttemptOutcome) (s : Nat → Int) (b : Nat → String)
    (n initialBackoff : Nat)
    (hs : ∀ k, s k = 429 ∨ s k = 500 ∨ s k = 502 ∨ s k = 503 ∨ s k = 504)
    (hout : ∀ k, outcomes k = .httpFailure (s k) (b k)) :
    (execute decodeOk outcomes (fun _ => false) n initialBackoff).attempts =
        n + 1 ∧
      (execute decodeOk outcomes (fun _ => false) n initialBackoff).result =
        .error (.api (NewAPIError (s n) (b n))) := by
  have h := runAttempts_retryable_exhausts decodeOk outcomes s b hs hout n 0
    initialBackoff
  exact ⟨by simpa using h.2, by simpa using h.1⟩

/-- C2 witness: a server that always answers 500 with `maxRetries = 2`
yields 3 attempts and a terminal `APIError` 500. -/
theorem execute_retryable_attempts_n_plus_one_witness :
    (execute (fun _ => true) (fun _ => .httpFailure 500 "boom")
        (fun _ => false) 2 1).attempts = 2 + 1 ∧
      (execute (fun _ => true) (fun _ => .httpFailure 500 "boom")
        (fun _ => false) 2 1).result =
        .error (.api (NewAPIError 500 "boom")) :=
  execute_retryable_attempts_n_plus_one (fun _ => true)
    (fun _ => .httpFailure 500 "boom") (fun _ => 500) (fun _ => "boom") 2 1
    (fun _ => Or.inr (Or.inl rfl)) (fun _ => rfl)

lemma runAttempts_delays_geometric (decodeOk : String → Bool)
    (outcomes : Nat → AttemptOutcome) (cancelled : Nat → Bool) :
    ∀ fuel attempt backoff i,
      i < (runAttempts decodeOk outcomes cancelled backoff attempt
          fuel).delays.length →
      (runAttempts decodeOk outcomes cancelled backoff attempt
          fuel).delays.get? i = some (backoff * 2 ^ i) := by
  intro fuel
  induction fuel with
  | zero =>
    intro attempt backoff i hi
    cases hc : cancelled attempt with
    | true =>
      rw [runAttempts_cancelled decodeOk outcomes cancelled backoff attempt 0
        hc] at hi
      simp at hi
    | false =>
      cases hcl : classify decodeOk (outcomes attempt) with
      | ok body =>
        unfold runAttempts at hi
        rw [hc, hcl] at hi
        simp at hi
      | fail e retryable =>
        rw [runAttempts_fail_fuel_zero decodeOk outcomes cancelled backoff
          attempt e retryable hc hcl] at hi
        simp at hi
  | succ fuel' ih =>
    intro attempt backoff i hi
    cases hc : cancelled attempt with
    | true =>
      rw [runAttempts_cancelled decodeOk outcomes cancelled backoff attempt
        (fuel' + 1) hc] at hi
      simp at hi
    | false =>
      cases hcl : classify decodeOk (outcomes attempt) with
      | ok body =>
        unfold runAttempts at hi
        rw [hc, hcl] at hi
        simp at hi
      | fail e retryable =>
        cases retryable with
        | false =>
          rw [runAttempts_fail_terminal decodeOk outcomes cancelled backoff
            attempt (fuel' + 1) e hc hcl] at hi
          simp at hi
        | true =>
          rw [runAttempts_fail_retry decodeOk outcomes cancelled backoff
            attempt fuel' e hc hcl] at hi ⊢
          cases i with
          | zero => simp
          | succ i' =>
            simp only [List.length_cons, Nat.succ_lt_succ_iff] at hi
            have h := ih (attempt + 1) (backoff * 2) i' hi
            simp only [List.get?]
            rw [h]
            congr 1
            ring

/-- C3: in any execution, the backoff delay slept before retry attempt `k`
(1-indexed) equals exactly `initialBackoff * 2 ^ (k - 1)` — uncapped
exponential doubling. -/
theorem execute_backoff_exponential (decodeOk : String → Bool)
    (outcomes : Nat → AttemptOutcome) (cancelled : Nat → Bool)
    (maxRetries initialBackoff k : Nat) (hk : 1 ≤ k)
    (hlen : k ≤ (execute decodeOk outcomes cancelled maxRetries
      initialBackoff).delays.length) :
    (execute decodeOk outcomes cancelled maxRetries
        initialBackoff).delays.get? (k - 1) =
      some (initialBackoff * 2 ^ (k - 1)) := by
  unfold execute at hlen ⊢
  exact runAttempts_delays_geometric decodeOk outcomes cancelled maxRetries 0
    initialBackoff (k - 1) (by omega)

/-- C3 witness: with initial backoff 7 and two retries against a persistent
500, the delay before retry attempt 2 is `7 * 2 ^ 1 = 14`. -/
theorem execute_backoff_exponential_witness :
    (execute (fun _ => true) (fun _ => .httpFailure 500 "boom")
        (fun _ => false) 2 7).delays.get? (2 - 1) = some (7 * 2 ^ (2 - 1)) :=
  execute_backoff_exponential (fun _ => true)
    (fun _ => .httpFailure 500 "boom") (fun _ => false) 2 7 2 (by decide)
    (by decide)

/-- C7: a 2xx response whose body the operation's decoder rejects yields a
terminal `ValidationError` describing the parse failure after exactly one
transport attempt: the outcome is not retried (and, the model being a total
function, the call cannot panic or crash). -/
theorem execute_unparsable_body_validation_error (decodeOk : String → Bool)
    (outcomes : Nat → AttemptOutcome) (maxRetries initialBackoff : Nat)
    (body : String) (hout : outcomes 0 = .success body)
    (hdec : decodeOk body = false) :
    execute decodeOk outcomes (fun _ => false) maxRetries initialBackoff =
      { result := .error (.validation (NewValidationError "response"
          ("failed to parse response body: " ++ body))),
        attempts := 1, delays := [] } := by
  unfold execute
  exact runAttempts_fail_terminal decodeOk outcomes (fun _ => false)
    initialBackoff 0 maxRetries _ rfl (by simp [hout, classify, hdec])

/-- C7 witness: a 2xx body `{invalid json}` rejected by the decoder ends the
call after one attempt with a `ValidationError`. -/
theorem execute_unparsable_body_validation_error_witness :
    execute (fun _ => false) (fun _ => .success "\x7binvalid json\x7d")
        (fun _ => false) 3 1 =
      { result := .error (.validation (NewValidationError "response"
          ("failed to parse response body: " ++ "\x7binvalid json\x7d"))),
        attempts := 1, delays := [] } :=
  execute_unparsable_body_validation_error (fun _ => false)
    (fun _ => .success "\x7binvalid json\x7d") 3 1 "\x7binvalid json\x7d"
    rfl rfl

/-- C8: when the cancellation signal has already fired at the first
rate-limiter acquisition, the Executor returns a `NetworkError` wrapping the
cancellation cause and performs zero transport attempts. -/
theorem execute_cancelled_before_first_acquire (decodeOk : String → Bool)
    (outcomes : Nat → AttemptOutcome) (cancelled : Nat → Bool)
    (maxRetries initialBackoff : Nat) (hc : cancelled 0 = true) :
    execute decodeOk outcomes cancelled maxRetries initialBackoff =
      { result := .error (.network (NewNetworkError "rate limiter wait failed"
          (some "context canceled"))),
        attempts := 0, delays := [] } := by
  unfold execute
  exact runAttempts_cancelled decodeOk outcomes cancelled initialBackoff 0
    maxRetries hc

/-- C8 witness: a signal cancelled from the start yields a `NetworkError`
and no transport attempt. -/
theorem execute_cancelled_before_first_acquire_witness :
    execute (fun _ => true) (fun _ => .success "ok") (fun _ => true) 3 1 =
      { result := .error (.network (NewNetworkError "rate limiter wait failed"
          (some "context canceled"))),
        attempts := 0, delays := [] } :=
  execute_cancelled_before_first_acquire (fun _ => true)
    (fun _ => .success "ok") (fun _ => true) 3 1 rfl

/-! ## Pagination option validation

Modelled from the spec: `InventoryOptions.Validate` is declared by the
repository's tests (`TestInventoryOptions_Validate`) but its defining file is
not in the source snapshot; it is embedded from the specification's property
list (§8) and error taxonomy (§7). -/

/-- Pagination options for an inventory query (Go `int` fields). -/
structure InventoryOptions where
  Limit : Int
  Offset : Int
  deriving Repr, DecidableEq

/-- Modelled from the spec (§8): limit below 0 is rejected, limit 0 is
defaulted to 500, limit above 500 is rejected, a negative offset is rejected,
and anything else is accepted unchanged.  The successful options (with the
default applied) are returned alongside no error, mirroring the Go method's
in-place mutation of the receiver. -/
def InventoryOptions.Validate (o : InventoryOptions) :
    Except ValidationError InventoryOptions :=
  if o.Limit < 0 then
    .error (NewValidationError "limit" "limit must be non-negative")
  else if o.Limit == 0 then
    if o.Offset < 0 then
      .error (NewValidationError "offset" "offset must be non-negative")
    else .ok { o with Limit := 500 }
  else if o.Limit > 500 then
    .error (NewValidationError "limit" "limit must not exceed 500")
  else if o.Offset < 0 then
    .error (NewValidationError "offset" "offset must be non-negative")
  else .ok o

/-- Modelled from the spec (§7 propagation policy): a typed inventory
operation validates its options before touching the network; an invalid
option value becomes a `ValidationError` with zero transport attempts, and
otherwise the call proceeds through the Executor. -/
def getSellerInventory (decodeOk : String → Bool)
    (outcomes : Nat → AttemptOutcome) (cancelled : Nat → Bool)
    (maxRetries initialBackoff : Nat) (opts : InventoryOptions) : ExecResult :=
  match opts.Validate with
  | .error e =>
      { result := .error (.validation e), attempts := 0, delays := [] }
  | .ok _ => execute decodeOk outcomes cancelled maxRetries initialBackoff

/-- C5: `Validate` rejects a negative limit with "limit must be
non-negative", defaults a zero limit to 500, rejects a limit above 500 with
"limit must not exceed 500", rejects a negative offset with "offset must be
non-negative", accepts any other options unchanged, and every rejection
reaches the caller as a `ValidationError` before any transport attempt is
made. -/
theorem inventoryOptions_validate_spec (o : InventoryOptions)
    (decodeOk : String → Bool) (outcomes : Nat → AttemptOutcome)
    (cancelled : Nat → Bool) (maxRetries initialBackoff : Nat) :
    (o.Limit < 0 →
      o.Validate = .error (NewValidationError "limit"
        "limit must be non-negative")) ∧
    (o.Limit = 0 → 0 ≤ o.Offset →
      o.Validate = .ok { o with Limit := 500 }) ∧
    (o.Limit > 500 →
      o.Validate = .error (NewValidationError "limit"
        "limit must not exceed 500")) ∧
    (0 < o.Limit → o.Limit ≤ 500 → o.Offset < 0 →
      o.Validate = .error (NewValidationError "offset"
        "offset must be non-negative")) ∧
    (0 < o.Limit → o.Limit ≤ 500 → 0 ≤ o.Offset → o.Validate = .ok o) ∧
    (∀ e, o.Validate = .error e →
      (getSellerInventory decodeOk outcomes cancelled maxRetries
        initialBackoff o).attempts = 0 ∧
      (getSellerInventory decodeOk outcomes cancelled maxRetries
        initialBackoff o).result = .error (.validation e)) := by
  refine ⟨?_, ?_, ?_, ?_, ?_, ?_⟩
  · intro h
    simp [InventoryOptions.Validate, h]
  · intro h hoff
    simp [InventoryOptions.Validate, h]
    omega
  · intro h
    have h0 : ¬o.Limit < 0 := by omega
    have h1 : ¬o.Limit = 0 := by omega
    simp [InventoryOptions.Validate, h0, h1, h]
  · intro h1 h2 h3
    have h0 : ¬o.Limit < 0 := by omega
    have hz : ¬o.Limit = 0 := by omega
    have hb : ¬o.Limit > 500 := by omega
    simp [InventoryOptions.Validate, h0, hz, hb, h3]
  · intro h1 h2 h3
    have h0 : ¬o.Limit < 0 := by omega
    have hz : ¬o.Limit = 0 := by omega
    have hb : ¬o.Limit > 500 := by omega
    have ho : ¬o.Offset < 0 := by omega
    simp [InventoryOptions.Validate, h0, hz, hb, ho]
  · intro e he
    unfold getSellerInventory
    rw [he]
    exact ⟨rfl, rfl⟩

/-- C5 witness: a negative limit is rejected with the exact message and the
inventory call performs zero transport attempts; a zero limit is defaulted
to 500; a limit of 501 is rejected; a negative offset is rejected; valid
options pass unchanged. -/
theorem inventoryOptions_validate_spec_witness :
    InventoryOptions.Validate ⟨-1, 0⟩ =
      .error (NewValidationError "limit" "limit must be non-negative") ∧
    InventoryOptions.Validate ⟨0, 0⟩ = .ok ⟨500, 0⟩ ∧
    InventoryOptions.Validate ⟨501, 0⟩ =
      .error (NewValidationError "limit" "limit must not exceed 500") ∧
    InventoryOptions.Validate ⟨100, -1⟩ =
      .error (NewValidationError "offset" "offset must be non-negative") ∧
    InventoryOptions.Validate ⟨100, 10000⟩ = .ok ⟨100, 10000⟩ ∧
    (getSellerInventory (fun _ => true) (fun _ => .success "ok")
      (fun _ => false) 3 1 ⟨-1, 0⟩).attempts = 0 :=
  ⟨(inventoryOptions_validate_spec ⟨-1, 0⟩ (fun _ => true)
      (fun _ => .success "ok") (fun _ => false) 3 1).1 (by decide),
   (inventoryOptions_validate_spec ⟨0, 0⟩ (fun _ => true)
      (fun _ => .success "ok") (fun _ => false) 3 1).2.1 rfl (by decide),
   (inventoryOptions_validate_spec ⟨501, 0⟩ (fun _ => true)
      (fun _ => .success "ok") (fun _ => false) 3 1).2.2.1 (by decide),
   (inventoryOptions_validate_spec ⟨100, -1⟩ (fun _ => true)
      (fun _ => .success "ok") (fun _ => false) 3 1).2.2.2.1 (by decide)
      (by decide) (by decide),
   (inventoryOptions_validate_spec ⟨100, 10000⟩ (fun _ => true)
      (fun _ => .success "ok") (fun _ => false) 3 1).2.2.2.2.1 (by decide)
      (by decide) (by decide),
   ((inventoryOptions_validate_spec ⟨-1, 0⟩ (fun _ => true)
      (fun _ => .success "ok") (fun _ => false) 3 1).2.2.2.2.2 _
      ((inventoryOptions_validate_spec ⟨-1, 0⟩ (fun _ => true)
        (fun _ => .success "ok") (fun _ => false) 3 1).1 (by decide))).1⟩

/-! ## The `Timestamp` JSON codec

Modelled from the spec: `Timestamp` and its JSON marshal/unmarshal methods
are declared by the repository's tests (`TestTimestamp_UnmarshalJSON`,
`TestTimestamp_MarshalJSON`) but their defining file is not in the source
snapshot.  The codec is embedded from the specification (§8 round-trip
property, "a custom timestamp parser tolerant of multiple upstream date
formats") and the test vectors: the primary textual form is RFC3339 with
fractional seconds and `Z`; the alternate accepted forms carry a numeric UTC
offset without a colon (`+0000`, `-0500`).  A parsed timestamp is kept as
its civil fields plus zone; day-of-month is validated against 31 (the
calendar-exact day check of Go's `time.Parse` is not modelled, no claim
depends on it). -/

/-- A timestamp: civil fields, nanoseconds, and the zone the text carried —
`none` for UTC (`Z`), `some (neg, hh, mm)` for a numeric offset. -/
structure Timestamp where
  year : Nat
  month : Nat
  day : Nat
  hour : Nat
  minute : Nat
  second : Nat
  nanos : Nat
  zone : Option (Bool × Nat × Nat)
  deriving Repr, DecidableEq

/-- Go's zero `time.Time`: January 1, year 1, 00:00:00 UTC. -/
def zeroTimestamp : Timestamp :=
  { year := 1, month := 1, day := 1, hour := 0, minute := 0, second := 0,
    nanos := 0, zone := none }

/-- Whether a timestamp is the zero time value. -/
def Timestamp.isZero (t : Timestamp) : Bool :=
  t == zeroTimestamp

/-- Days from the civil epoch 1970-01-01 (standard civil-from-days
inverse), used to give each timestamp an absolute instant. -/
def daysFromCivil (y m d : Int) : Int :=
  let yAdj : Int := if m ≤ 2 then y - 1 else y
  let era : Int := (if 0 ≤ yAdj then yAdj else yAdj - 399) / 400
  let yoe : Int := yAdj - era * 400
  let mp : Int := if 2 < m then m - 3 else m + 9
  let doy : Int := (153 * mp + 2) / 5 + d - 1
  let doe : Int := yoe * 365 + yoe / 4 - yoe / 100 + doy
  era * 146097 + doe - 719468

/-- The signed zone offset in seconds east of UTC. -/
def offsetSeconds : Option (Bool × Nat × Nat) → Int
  | none => 0
  | some (neg, zh, zm) =>
      (if neg then -1 else 1) * ((zh : Int) * 3600 + (zm : Int) * 60)

/-- The absolute instant a timestamp denotes, in nanoseconds since the Unix
epoch. -/
def instantNanos (t : Timestamp) : Int :=
  (daysFromCivil t.year t.month t.day * 86400 + (t.hour : Int) * 3600 +
      (t.minute : Int) * 60 + (t.second : Int) - offsetSeconds t.zone) *
    1000000000 + (t.nanos : Int)

/-- The decimal digit character for `n < 10`. -/
def digitChar (n : Nat) : Char :=
  Char.ofNat (48 + n)

/-- The value of a decimal digit character. -/
def digitVal (c : Char) : Nat :=
  c.toNat - 48

/-- `n` printed as exactly `w` decimal digits (most significant first),
zero-padded; the last `w` digits when `n` is too large. -/
def padNum : Nat → Nat → List Char
  | 0, _ => []
  | w + 1, n => digitChar (n / 10 ^ w) :: padNum w (n % 10 ^ w)

/-- The quote character, `'"'`. -/
def quoteChar : Char :=
  Char.ofNat 34

/-- Fold decimal digit characters into a number, most significant first. -/
def valDigits : Nat → List Char → Nat
  | acc, [] => acc
  | acc, c :: cs => valDigits (acc * 10 + digitVal c) cs

/-- Drop the trailing `'0'` characters. -/
def trimTrailingZeros (xs : List Char) : List Char :=
  (xs.reverse.dropWhile (fun c => c == '0')).reverse

/-- The fractional-seconds text of a nanosecond count, as Go renders it for
`RFC3339Nano`: empty when zero, otherwise a dot followed by the nine-digit
field with trailing zeros trimmed. -/
def renderFrac (nanos : Nat) : List Char :=
  if nanos == 0 then [] else '.' :: trimTrailingZeros (padNum 9 nanos)

/-- The zone suffix in the primary (colon-delimited / `Z`) form. -/
def renderZoneColon : Option (Bool × Nat × Nat) → List Char
  | none => ['Z']
  | some (neg, zh, zm) =>
      (if neg then '-' else '+') :: (padNum 2 zh ++ ':' :: padNum 2 zm)

/-- The zone suffix in the alternate no-colon numeric form. -/
def renderZoneNoColon : Option (Bool × Nat × Nat) → List Char
  | none => ['Z']
  | some (neg, zh, zm) =>
      (if neg then '-' else '+') :: (padNum 2 zh ++ padNum 2 zm)

/-- The date-time text up to and including the fractional seconds. -/
def renderBody (t : Timestamp) : List Char :=
  padNum 4 t.year ++ '-' :: (padNum 2 t.month ++ '-' :: (padNum 2 t.day ++
    'T' :: (padNum 2 t.hour ++ ':' :: (padNum 2 t.minute ++ ':' ::
      (padNum 2 t.second ++ renderFrac t.nanos)))))

/-- The timestamp's text in the primary colon-delimited / `Z` form. -/
def renderColon (t : Timestamp) : List Char :=
  renderBody t ++ renderZoneColon t.zone

/-- The timestamp's text in the alternate no-colon offset form. -/
def renderNoColon (t : Timestamp) : List Char :=
  renderBody t ++ renderZoneNoColon t.zone

/-- Read exactly `w` decimal digit characters, most significant first. -/
def readFixed : Nat → Nat → List Char → Option (Nat × List Char)
  | 0, acc, cs => some (acc, cs)
  | _ + 1, _, [] => none
  | w + 1, acc, c :: cs =>
      if c.isDigit then readFixed w (acc * 10 + digitVal c) cs else none

/-- Consume one expected literal character. -/
def expectChar (c : Char) : List Char → Option (List Char)
  | [] => none
  | c' :: cs => if c' == c then some cs else none

/-- Parse an optional fractional-seconds field: a dot followed by one to
nine digits, scaled to nanoseconds; absent when the next character is not a
dot. -/
def parseFrac (cs : List Char) : Option (Nat × List Char) :=
  match cs with
  | [] => some (0, [])
  | c :: rest =>
    if c == '.' then
      let ds := rest.takeWhile (fun d => d.isDigit)
      let tail := rest.dropWhile (fun d => d.isDigit)
      if 1 ≤ ds.length ∧ ds.length ≤ 9 then
        some (valDigits 0 ds * 10 ^ (9 - ds.length), tail)
      else none
    else some (0, cs)

/-- Parse the digits of a numeric zone offset, with or without the colon. -/
def parseZoneDigits (neg : Bool) (cs : List Char) :
    Option (Option (Bool × Nat × Nat) × List Char) :=
  match readFixed 2 0 cs with
  | none => none
  | some (zh, rest) =>
    match rest with
    | [] => none
    | c :: rest' =>
      if c == ':' then
        match readFixed 2 0 rest' with
        | none => none
        | some (zm, tail) => some (some (neg, zh, zm), tail)
      else
        match readFixed 2 0 rest with
        | none => none
        | some (zm, tail) => some (some (neg, zh, zm), tail)

/-- Parse the zone suffix: `Z`, or a sign followed by a two-digit hour and a
two-digit minute, the two separated by an optional colon. -/
def parseZone (cs : List Char) :
    Option (Option (Bool × Nat × Nat) × List Char) :=
  match cs with
  | [] => none
  | c :: rest =>
    if c == 'Z' then some (none, rest)
    else if c == '+' then parseZoneDigits false rest
    else if c == '-' then parseZoneDigits true rest
    else none

/-- Whether the zone's numeric fields are in range. -/
def zoneValid : Option (Bool × Nat × Nat) → Bool
  | none => true
  | some (_, zh, zm) => decide (zh ≤ 23) && decide (zm ≤ 59)

/-- Parse a full timestamp text; the whole input must be consumed and every
field must be in range. -/
def parseTimestampChars (cs : List Char) : Option Timestamp := do
  let (y, cs) ← readFixed 4 0 cs
  let cs ← expectChar '-' cs
  let (mo, cs) ← readFixed 2 0 cs
  let cs ← expectChar '-' cs
  let (d, cs) ← readFixed 2 0 cs
  let cs ← expectChar 'T' cs
  let (h, cs) ← readFixed 2 0 cs
  let cs ← expectChar ':' cs
  let (mi, cs) ← readFixed 2 0 cs
  let cs ← expectChar ':' cs
  let (s, cs) ← readFixed 2 0 cs
  let (ns, cs) ← parseFrac cs
  let (zone, cs) ← parseZone cs
  if cs = [] ∧ 1 ≤ mo ∧ mo ≤ 12 ∧ 1 ≤ d ∧ d ≤ 31 ∧ h ≤ 23 ∧ mi ≤ 59 ∧
      s ≤ 59 ∧ zoneValid zone = true then
    pure { year := y, month := mo, day := d, hour := h, minute := mi,
           second := s, nanos := ns, zone := zone }
  else none

/-- Modelled from the spec / `TestTimestamp_MarshalJSON`: the zero timestamp
marshals to the JSON literal `null`; any other value marshals to its quoted
primary-form text. -/
def Timestamp.MarshalJSON (t : Timestamp) : String :=
  if t.isZero then "null" else "\"" ++ String.mk (renderColon t) ++ "\""

/-- Modelled from the spec / `TestTimestamp_UnmarshalJSON`: the raw JSON
value must be a quoted string whose contents parse as one of the accepted
timestamp forms; anything else is an error. -/
def Timestamp.UnmarshalJSON (data : String) : Except String Timestamp :=
  match data.toList with
  | c :: rest =>
    if c == quoteChar then
      match rest.getLast? with
      | some c' =>
        if c' == quoteChar then
          match parseTimestampChars rest.dropLast with
          | some t => .ok t
          | none => .error "parsing time: unrecognized format"
        else .error "invalid timestamp JSON"
      | none => .error "invalid timestamp JSON"
    else .error "invalid timestamp JSON"
  | [] => .error "invalid timestamp JSON"

/-! ### Digit and fixed-width rendering lemmas -/

lemma digitChar_isDigit (d : Nat) (hd : d < 10) : (digitChar d).isDigit = true := by
  interval_cases d <;> decide

lemma digitVal_digitChar (d : Nat) (hd : d < 10) : digitVal (digitChar d) = d := by
  interval_cases d <;> decide

lemma digitChar_ne_colon (d : Nat) (hd : d < 10) : (digitChar d == ':') = false := by
  interval_cases d <;> decide

lemma padNum_length (w : Nat) : ∀ n, (padNum w n).length = w := by
  induction w with
  | zero => intro n; rfl
  | succ w ih => intro n; simp [padNum, ih]

lemma padNum_all_isDigit (w : Nat) :
    ∀ n, n < 10 ^ w → ∀ c ∈ padNum w n, c.isDigit = true := by
  induction w with
  | zero => intro n _ c hc; simp [padNum] at hc
  | succ w ih =>
    intro n hn c hc
    have hq : n / 10 ^ w < 10 :=
      Nat.div_lt_of_lt_mul (by rw [← pow_succ]; exact hn)
    simp only [padNum, List.mem_cons] at hc
    rcases hc with rfl | hc
    · exact digitChar_isDigit _ hq
    · exact ih (n % 10 ^ w) (Nat.mod_lt _ (Nat.pos_pow_of_pos w (by norm_num))) c hc

lemma padNum_succ (w n : Nat) :
    padNum (w + 1) n = digitChar (n / 10 ^ w) :: padNum w (n % 10 ^ w) := rfl

lemma readFixed_zero_eq (acc : Nat) (cs : List Char) :
    readFixed 0 acc cs = some (acc, cs) := rfl

lemma readFixed_succ_cons (w acc : Nat) (c : Char) (cs : List Char) :
    readFixed (w + 1) acc (c :: cs) =
      if c.isDigit then readFixed w (acc * 10 + digitVal c) cs else none := rfl

lemma readFixed_padNum (w : Nat) :
    ∀ acc n rest, n < 10 ^ w →
      readFixed w acc (padNum w n ++ rest) = some (acc * 10 ^ w + n, rest) := by
  induction w with
  | zero =>
    intro acc n rest hn
    have hn0 : n = 0 := Nat.lt_one_iff.mp (by simpa using hn)
    subst hn0
    simp [padNum, readFixed_zero_eq]
  | succ w ih =>
    intro acc n rest hn
    have hq : n / 10 ^ w < 10 :=
      Nat.div_lt_of_lt_mul (by rw [← pow_succ]; exact hn)
    have hr : n % 10 ^ w < 10 ^ w :=
      Nat.mod_lt _ (Nat.pos_pow_of_pos w (by norm_num))
    rw [padNum_succ, List.cons_append, readFixed_succ_cons,
      if_pos (digitChar_isDigit _ hq), digitVal_digitChar _ hq,
      ih (acc * 10 + n / 10 ^ w) (n % 10 ^ w) rest hr]
    have key : (acc * 10 + n / 10 ^ w) * 10 ^ w + n % 10 ^ w =
        acc * 10 ^ (w + 1) + n := by
      have h1 : 10 ^ w * (n / 10 ^ w) + n % 10 ^ w = n := Nat.div_add_mod n (10 ^ w)
      calc (acc * 10 + n / 10 ^ w) * 10 ^ w + n % 10 ^ w
          = acc * (10 ^ w * 10) + (10 ^ w * (n / 10 ^ w) + n % 10 ^ w) := by ring
        _ = acc * 10 ^ (w + 1) + n := by rw [h1, ← pow_succ]
    rw [key]

lemma readFixed_padNum_zero (w n : Nat) (hn : n < 10 ^ w) :
    ∀ rest, readFixed w 0 (padNum w n ++ rest) = some (n, rest) := by
  intro rest
  have := readFixed_padNum w 0 n rest hn
  simpa using this

lemma valDigits_nil (acc : Nat) : valDigits acc [] = acc := rfl

lemma valDigits_cons (acc : Nat) (c : Char) (cs : List Char) :
    valDigits acc (c :: cs) = valDigits (acc * 10 + digitVal c) cs := rfl

lemma valDigits_append (xs ys : List Char) :
    ∀ acc, valDigits acc (xs ++ ys) = valDigits (valDigits acc xs) ys := by
  induction xs with
  | nil => intro acc; rfl
  | cons c cs ih =>
    intro acc
    rw [List.cons_append, valDigits_cons, valDigits_cons, ih]

lemma valDigits_replicate_zero (k : Nat) :
    ∀ acc, valDigits acc (List.replicate k '0') = acc * 10 ^ k := by
  induction k with
  | zero => intro acc; simp [valDigits_nil]
  | succ k ih =>
    intro acc
    have h0 : digitVal '0' = 0 := rfl
    rw [List.replicate_succ, valDigits_cons, h0, Nat.add_zero, ih]
    ring

lemma valDigits_padNum (w : Nat) :
    ∀ acc n, n < 10 ^ w → valDigits acc (padNum w n) = acc * 10 ^ w + n := by
  induction w with
  | zero =>
    intro acc n hn
    have hn0 : n = 0 := Nat.lt_one_iff.mp (by simpa using hn)
    subst hn0
    simp [padNum, valDigits_nil]
  | succ w ih =>
    intro acc n hn
    have hq : n / 10 ^ w < 10 :=
      Nat.div_lt_of_lt_mul (by rw [← pow_succ]; exact hn)
    have hr : n % 10 ^ w < 10 ^ w :=
      Nat.mod_lt _ (Nat.pos_pow_of_pos w (by norm_num))
    rw [padNum_succ, valDigits_cons, digitVal_digitChar _ hq,
      ih (acc * 10 + n / 10 ^ w) (n % 10 ^ w) hr]
    have h1 : 10 ^ w * (n / 10 ^ w) + n % 10 ^ w = n := Nat.div_add_mod n (10 ^ w)
    calc (acc * 10 + n / 10 ^ w) * 10 ^ w + n % 10 ^ w
        = acc * (10 ^ w * 10) + (10 ^ w * (n / 10 ^ w) + n % 10 ^ w) := by ring
      _ = acc * 10 ^ (w + 1) + n := by rw [h1, ← pow_succ]

/-! ### Trailing-zero trimming lemmas -/

lemma trimTrailingZeros_decomp (xs : List Char) :
    ∃ k, xs = trimTrailingZeros xs ++ List.replicate k '0' := by
  refine ⟨(xs.reverse.takeWhile (fun c => c == '0')).length, ?_⟩
  have htake : xs.reverse.takeWhile (fun c => c == '0') =
      List.replicate (xs.reverse.takeWhile (fun c => c == '0')).length '0' := by
    apply List.eq_replicate_length.mpr
    intro b hb
    have hmem := List.mem_takeWhile_imp hb
    simpa using hmem
  have hsplit := List.takeWhile_append_dropWhile (fun c => c == '0') xs.reverse
  calc xs = xs.reverse.reverse := (List.reverse_reverse xs).symm
    _ = (xs.reverse.takeWhile (fun c => c == '0') ++
          xs.reverse.dropWhile (fun c => c == '0')).reverse := by rw [hsplit]
    _ = (xs.reverse.dropWhile (fun c => c == '0')).reverse ++
          (xs.reverse.takeWhile (fun c => c == '0')).reverse := by
        rw [List.reverse_append]
    _ = trimTrailingZeros xs ++
          List.replicate (xs.reverse.takeWhile (fun c => c == '0')).length '0' := by
        unfold trimTrailingZeros
        congr 1
        rw [htake, List.reverse_replicate]
        simp

lemma mem_trimTrailingZeros (xs : List Char) (c : Char)
    (hc : c ∈ trimTrailingZeros xs) : c ∈ xs := by
  unfold trimTrailingZeros at hc
  rw [List.mem_reverse] at hc
  have hsub := (List.dropWhile_sublist (l := xs.reverse)
    (fun d => d == '0')).subset hc
  simpa using hsub

/-! ### Parsing the rendered fields back -/

lemma takeWhile_digits_append (ds : List Char)
    (hds : ∀ c ∈ ds, c.isDigit = true) :
    ∀ rest, (∀ c tail, rest = c :: tail → c.isDigit = false) →
      (ds ++ rest).takeWhile (fun d => d.isDigit) = ds ∧
      (ds ++ rest).dropWhile (fun d => d.isDigit) = rest := by
  induction ds with
  | nil =>
    intro rest hrest
    cases rest with
    | nil => exact ⟨rfl, rfl⟩
    | cons c tail =>
      constructor
      · simp [List.takeWhile_cons, hrest c tail rfl]
      · simp [List.dropWhile_cons, hrest c tail rfl]
  | cons d ds ih =>
    intro rest hrest
    have hd : d.isDigit = true := hds d (by simp)
    have ihr := ih (fun c hc => hds c (by simp [hc])) rest hrest
    constructor
    · simp [List.takeWhile_cons, hd, ihr.1]
    · simp [List.dropWhile_cons, hd, ihr.2]

lemma expectChar_cons (c : Char) (cs : List Char) :
    expectChar c (c :: cs) = some cs := by
  simp [expectChar]

lemma parseFrac_renderFrac (nanos : Nat) (hn : nanos < 10 ^ 9)
    (rest : List Char)
    (hrest : ∀ c tail, rest = c :: tail →
      c.isDigit = false ∧ (c == '.') = false) :
    parseFrac (renderFrac nanos ++ rest) = some (nanos, rest) := by
  by_cases h0 : nanos = 0
  · subst h0
    rw [show renderFrac 0 = [] from rfl, List.nil_append]
    cases rest with
    | nil => rfl
    | cons c tail =>
      have hc := (hrest c tail rfl).2
      simp [parseFrac, hc]
  · have hne : (nanos == 0) = false := by simpa using h0
    rw [show renderFrac nanos =
      (if nanos == 0 then [] else
        '.' :: trimTrailingZeros (padNum 9 nanos)) from rfl, hne]
    simp only [Bool.false_eq_true, if_false, List.cons_append]
    obtain ⟨k, hk⟩ := trimTrailingZeros_decomp (padNum 9 nanos)
    have hTdig : ∀ c ∈ trimTrailingZeros (padNum 9 nanos), c.isDigit = true :=
      fun c hc =>
        padNum_all_isDigit 9 nanos hn c (mem_trimTrailingZeros _ c hc)
    have hsplit := takeWhile_digits_append (trimTrailingZeros (padNum 9 nanos))
      hTdig rest (fun c tail hr => (hrest c tail hr).1)
    have hlen9 : (padNum 9 nanos).length = 9 := padNum_length 9 nanos
    have hlenk : (trimTrailingZeros (padNum 9 nanos)).length + k = 9 := by
      have hlen := congrArg List.length hk
      simp only [List.length_append, List.length_replicate] at hlen
      omega
    have hval : valDigits 0 (padNum 9 nanos) = nanos := by
      have := valDigits_padNum 9 0 nanos hn
      simpa using this
    have hvalT : valDigits 0 (trimTrailingZeros (padNum 9 nanos)) * 10 ^ k =
        nanos := by
      rw [hk, valDigits_append, valDigits_replicate_zero] at hval
      exact hval
    have hTne : trimTrailingZeros (padNum 9 nanos) ≠ [] := by
      intro hTnil
      rw [hTnil] at hvalT
      rw [valDigits_nil] at hvalT
      simp at hvalT
      exact h0 hvalT.symm
    have hlen1 : 1 ≤ (trimTrailingZeros (padNum 9 nanos)).length := by
      cases hT : trimTrailingZeros (padNum 9 nanos) with
      | nil => exact absurd hT hTne
      | cons a l => simp [hT]
    simp only [parseFrac]
    rw [hsplit.1, hsplit.2]
    have hexp : 9 - (trimTrailingZeros (padNum 9 nanos)).length = k := by omega
    rw [hexp, hvalT]
    have hcond : 1 ≤ (trimTrailingZeros (padNum 9 nanos)).length ∧
        (trimTrailingZeros (padNum 9 nanos)).length ≤ 9 := ⟨hlen1, by omega⟩
    rw [if_pos hcond]
    simp

lemma parseZoneDigits_colon (neg : Bool) (zh zm : Nat) (h1 : zh < 100)
    (h2 : zm < 100) :
    parseZoneDigits neg (padNum 2 zh ++ ':' :: padNum 2 zm) =
      some (some (neg, zh, zm), []) := by
  have hzh := readFixed_padNum_zero 2 zh (by norm_num; omega)
    (':' :: padNum 2 zm)
  have hzm0 := readFixed_padNum_zero 2 zm (by norm_num; omega) []
  rw [List.append_nil] at hzm0
  simp only [parseZoneDigits, hzh]
  simp [hzm0]

lemma parseZoneDigits_nocolon (neg : Bool) (zh zm : Nat) (h1 : zh < 100)
    (h2 : zm < 100) :
    parseZoneDigits neg (padNum 2 zh ++ padNum 2 zm) =
      some (some (neg, zh, zm), []) := by
  have hzh := readFixed_padNum_zero 2 zh (by norm_num; omega) (padNum 2 zm)
  have hzm0 := readFixed_padNum_zero 2 zm (by norm_num; omega) []
  rw [List.append_nil] at hzm0
  have hq : zm / 10 ^ 1 < 10 := by
    have : (10:Nat) ^ 1 = 10 := by norm_num
    rw [this]
    omega
  have hpad : padNum 2 zm = digitChar (zm / 10 ^ 1) :: padNum 1 (zm % 10 ^ 1) :=
    padNum_succ 1 zm
  simp only [parseZoneDigits, hzh]
  rw [hpad]
  simp only [digitChar_ne_colon (zm / 10 ^ 1) hq, Bool.false_eq_true, if_false]
  rw [← hpad, hzm0]

lemma parseZone_renderZoneColon (z : Option (Bool × Nat × Nat))
    (hz : zoneValid z = true) :
    parseZone (renderZoneColon z) = some (z, []) := by
  match z with
  | none => rfl
  | some (neg, zh, zm) =>
    simp only [zoneValid, Bool.and_eq_true, decide_eq_true_eq] at hz
    have h1 : zh < 100 := by omega
    have h2 : zm < 100 := by omega
    cases neg with
    | false =>
      calc parseZone (renderZoneColon (some (false, zh, zm)))
          = parseZoneDigits false (padNum 2 zh ++ ':' :: padNum 2 zm) := rfl
        _ = some (some (false, zh, zm), []) :=
            parseZoneDigits_colon false zh zm h1 h2
    | true =>
      calc parseZone (renderZoneColon (some (true, zh, zm)))
          = parseZoneDigits true (padNum 2 zh ++ ':' :: padNum 2 zm) := rfl
        _ = some (some (true, zh, zm), []) :=
            parseZoneDigits_colon true zh zm h1 h2

lemma parseZone_renderZoneNoColon (neg : Bool) (zh zm : Nat) (h1 : zh < 100)
    (h2 : zm < 100) :
    parseZone (renderZoneNoColon (some (neg, zh, zm))) =
      some (some (neg, zh, zm), []) := by
  cases neg with
  | false =>
    calc parseZone (renderZoneNoColon (some (false, zh, zm)))
        = parseZoneDigits false (padNum 2 zh ++ padNum 2 zm) := rfl
      _ = some (some (false, zh, zm), []) :=
          parseZoneDigits_nocolon false zh zm h1 h2
  | true =>
    calc parseZone (renderZoneNoColon (some (true, zh, zm)))
        = parseZoneDigits true (padNum 2 zh ++ padNum 2 zm) := rfl
      _ = some (some (true, zh, zm), []) :=
          parseZoneDigits_nocolon true zh zm h1 h2

lemma renderZoneColon_head (z : Option (Bool × Nat × Nat)) :
    ∀ c tail, renderZoneColon z = c :: tail →
      c.isDigit = false ∧ (c == '.') = false := by
  match z with
  | none =>
    intro c tail h
    simp only [renderZoneColon] at h
    injection h with hc _
    subst hc
    exact ⟨rfl, rfl⟩
  | some (neg, zh, zm) =>
    intro c tail h
    cases neg with
    | false =>
      have h2 : ('+' : Char) :: (padNum 2 zh ++ ':' :: padNum 2 zm) =
          c :: tail := h
      injection h2 with hc _
      subst hc
      exact ⟨rfl, rfl⟩
    | true =>
      have h2 : ('-' : Char) :: (padNum 2 zh ++ ':' :: padNum 2 zm) =
          c :: tail := h
      injection h2 with hc _
      subst hc
      exact ⟨rfl, rfl⟩

lemma renderZoneNoColon_head (z : Option (Bool × Nat × Nat)) :
    ∀ c tail, renderZoneNoColon z = c :: tail →
      c.isDigit = false ∧ (c == '.') = false := by
  match z with
  | none =>
    intro c tail h
    simp only [renderZoneNoColon] at h
    injection h with hc _
    subst hc
    exact ⟨rfl, rfl⟩
  | some (neg, zh, zm) =>
    intro c tail h
    cases neg with
    | false =>
      have h2 : ('+' : Char) :: (padNum 2 zh ++ padNum 2 zm) = c :: tail := h
      injection h2 with hc _
      subst hc
      exact ⟨rfl, rfl⟩
    | true =>
      have h2 : ('-' : Char) :: (padNum 2 zh ++ padNum 2 zm) = c :: tail := h
      injection h2 with hc _
      subst hc
      exact ⟨rfl, rfl⟩

lemma parseTimestampChars_render (t : Timestamp) (zs : List Char)
    (hy : t.year ≤ 9999) (hmo1 : 1 ≤ t.month) (hmo2 : t.month ≤ 12)
    (hd1 : 1 ≤ t.day) (hd2 : t.day ≤ 31) (hh : t.hour ≤ 23)
    (hmi : t.minute ≤ 59) (hs2 : t.second ≤ 59) (hns : t.nanos < 10 ^ 9)
    (hz : zoneValid t.zone = true)
    (hzone : parseZone zs = some (t.zone, []))
    (hhead : ∀ c tail, zs = c :: tail →
      c.isDigit = false ∧ (c == '.') = false) :
    parseTimestampChars (renderBody t ++ zs) = some t := by
  have hy4 := readFixed_padNum_zero 4 t.year (by norm_num; omega)
  have hmoE := readFixed_padNum_zero 2 t.month (by norm_num; omega)
  have hdE := readFixed_padNum_zero 2 t.day (by norm_num; omega)
  have hhE := readFixed_padNum_zero 2 t.hour (by norm_num; omega)
  have hmiE := readFixed_padNum_zero 2 t.minute (by norm_num; omega)
  have hsE := readFixed_padNum_zero 2 t.second (by norm_num; omega)
  have hfrac := parseFrac_renderFrac t.nanos hns zs hhead
  have hlist : renderBody t ++ zs =
      padNum 4 t.year ++ '-' :: (padNum 2 t.month ++ '-' :: (padNum 2 t.day ++
        'T' :: (padNum 2 t.hour ++ ':' :: (padNum 2 t.minute ++ ':' ::
          (padNum 2 t.second ++ (renderFrac t.nanos ++ zs)))))) := by
    simp [renderBody, List.append_assoc]
  rw [hlist]
  unfold parseTimestampChars
  rw [hy4]
  dsimp only [Option.bind_eq_bind, Option.some_bind]
  rw [expectChar_cons]
  dsimp only [Option.bind_eq_bind, Option.some_bind]
  rw [hmoE]
  dsimp only [Option.bind_eq_bind, Option.some_bind]
  rw [expectChar_cons]
  dsimp only [Option.bind_eq_bind, Option.some_bind]
  rw [hdE]
  dsimp only [Option.bind_eq_bind, Option.some_bind]
  rw [expectChar_cons]
  dsimp only [Option.bind_eq_bind, Option.some_bind]
  rw [hhE]
  dsimp only [Option.bind_eq_bind, Option.some_bind]
  rw [expectChar_cons]
  dsimp only [Option.bind_eq_bind, Option.some_bind]
  rw [hmiE]
  dsimp only [Option.bind_eq_bind, Option.some_bind]
  rw [expectChar_cons]
  dsimp only [Option.bind_eq_bind, Option.some_bind]
  rw [hsE]
  dsimp only [Option.bind_eq_bind, Option.some_bind]
  rw [hfrac]
  dsimp only [Option.bind_eq_bind, Option.some_bind]
  rw [hzone]
  dsimp only [Option.bind_eq_bind, Option.some_bind]
  rw [if_pos ⟨rfl, hmo1, hmo2, hd1, hd2, hh, hmi, hs2, hz⟩]
  rfl

lemma unmarshal_quoted (cs : List Char) (t : Timestamp)
    (hparse : parseTimestampChars cs = some t) :
    Timestamp.UnmarshalJSON ("\"" ++ String.mk cs ++ "\"") = .ok t := by
  have hquote : ("\"" : String).data = [quoteChar] := rfl
  have hdata : ("\"" ++ String.mk cs ++ "\"").toList =
      quoteChar :: (cs ++ [quoteChar]) := by
    show ("\"" ++ String.mk cs ++ "\"").data = quoteChar :: (cs ++ [quoteChar])
    rw [String.data_append, String.data_append, hquote]
    rfl
  simp only [Timestamp.UnmarshalJSON, hdata, beq_self_eq_true, if_pos,
    List.getLast?_concat, List.dropLast_concat, hparse]

/-- C6: on every in-range timestamp the codec round-trips through the
primary supported format — a UTC (`Z`) value marshals to its RFC3339 text
with fractional seconds and unmarshals back to an equal instant — and a
value carrying a numeric offset decodes from its alternate no-colon textual
form (`+hhmm` / `-hhmm`) to the same absolute instant as its
colon-delimited form. -/
theorem timestamp_roundtrip_formats (t : Timestamp)
    (hy : t.year ≤ 9999) (hmo1 : 1 ≤ t.month) (hmo2 : t.month ≤ 12)
    (hd1 : 1 ≤ t.day) (hd2 : t.day ≤ 31) (hh : t.hour ≤ 23)
    (hmi : t.minute ≤ 59) (hs2 : t.second ≤ 59) (hns : t.nanos < 10 ^ 9) :
    (t.zone = none → t.isZero = false →
      ∃ u, Timestamp.UnmarshalJSON (Timestamp.MarshalJSON t) = .ok u ∧
        instantNanos u = instantNanos t) ∧
    (∀ neg zh zm, t.zone = some (neg, zh, zm) → zh ≤ 23 → zm ≤ 59 →
      ∃ u v, parseTimestampChars (renderNoColon t) = some u ∧
        parseTimestampChars (renderColon t) = some v ∧
        instantNanos u = instantNanos t ∧ instantNanos v = instantNanos t) := by
  constructor
  · intro hzn hnz
    refine ⟨t, ?_, rfl⟩
    have hzv : zoneValid t.zone = true := by rw [hzn]; rfl
    have hparse : parseTimestampChars (renderColon t) = some t := by
      unfold renderColon
      exact parseTimestampChars_render t (renderZoneColon t.zone) hy hmo1
        hmo2 hd1 hd2 hh hmi hs2 hns hzv
        (parseZone_renderZoneColon t.zone hzv) (renderZoneColon_head t.zone)
    have hm : Timestamp.MarshalJSON t =
        "\"" ++ String.mk (renderColon t) ++ "\"" := by
      unfold Timestamp.MarshalJSON
      rw [hnz]
      simp
    rw [hm]
    exact unmarshal_quoted (renderColon t) t hparse
  · intro neg zh zm hzs hzh hzm
    have hzv : zoneValid t.zone = true := by
      rw [hzs]
      simp only [zoneValid, Bool.and_eq_true, decide_eq_true_eq]
      omega
    refine ⟨t, t, ?_, ?_, rfl, rfl⟩
    · unfold renderNoColon
      refine parseTimestampChars_render t _ hy hmo1 hmo2 hd1 hd2 hh hmi hs2
        hns hzv ?_ (renderZoneNoColon_head t.zone)
      rw [hzs]
      exact parseZone_renderZoneNoColon neg zh zm (by omega) (by omega)
    · unfold renderColon
      exact parseTimestampChars_render t _ hy hmo1 hmo2 hd1 hd2 hh hmi hs2
        hns hzv (parseZone_renderZoneColon t.zone hzv)
        (renderZoneColon_head t.zone)

/-- C6 witness: the test vector `2025-08-05T20:38:54.549229Z` round-trips
through marshal/unmarshal, and the same fields with a `-0500` offset decode
from both the no-colon and the colon offset text to the same instant. -/
theorem timestamp_roundtrip_formats_witness :
    (∃ u, Timestamp.UnmarshalJSON (Timestamp.MarshalJSON
        ⟨2025, 8, 5, 20, 38, 54, 549229000, none⟩) = .ok u ∧
      instantNanos u =
        instantNanos ⟨2025, 8, 5, 20, 38, 54, 549229000, none⟩) ∧
    (∃ u v, parseTimestampChars (renderNoColon
        ⟨2025, 8, 5, 20, 38, 54, 549229000, some (true, 5, 0)⟩) = some u ∧
      parseTimestampChars (renderColon
        ⟨2025, 8, 5, 20, 38, 54, 549229000, some (true, 5, 0)⟩) = some v ∧
      instantNanos u =
        instantNanos ⟨2025, 8, 5, 20, 38, 54, 549229000, some (true, 5, 0)⟩ ∧
      instantNanos v =
        instantNanos ⟨2025, 8, 5, 20, 38, 54, 549229000, some (true, 5, 0)⟩) :=
  ⟨(timestamp_roundtrip_formats ⟨2025, 8, 5, 20, 38, 54, 549229000, none⟩
      (by norm_num) (by norm_num) (by norm_num) (by norm_num) (by norm_num)
      (by norm_num) (by norm_num) (by norm_num) (by norm_num)).1 rfl rfl,
   (timestamp_roundtrip_formats
      ⟨2025, 8, 5, 20, 38, 54, 549229000, some (true, 5, 0)⟩
      (by norm_num) (by norm_num) (by norm_num) (by norm_num) (by norm_num)
      (by norm_num) (by norm_num) (by norm_num) (by norm_num)).2 true 5 0
      rfl (by norm_num) (by norm_num)⟩

/-- C10: the zero timestamp marshals to the JSON literal `null` rather than
a formatted string, unmarshaling the empty JSON string fails, and decoding
the zero value's own encoding (`null`) fails too — the encode-then-decode
round trip does not hold at the zero value. -/
theorem timestamp_zero_marshals_null_no_roundtrip :
    Timestamp.MarshalJSON zeroTimestamp = "null" ∧
    Timestamp.UnmarshalJSON "\"\"" =
      .error "parsing time: unrecognized format" ∧
    Timestamp.UnmarshalJSON (Timestamp.MarshalJSON zeroTimestamp) =
      .error "invalid timestamp JSON" :=
  ⟨rfl, rfl, rfl⟩
